import Mathlib

/-
Verification of the Godwoken layer-2 state-transition generator
(crates/generator/src/generator.rs).

The generator orchestrates one block: it applies withdrawal requests, then
deposition requests, then checks and executes each layer-2 transaction in
order, committing every transaction journal (RunResult) to the account state.
The account-state capability, the backend registry payloads and the sandboxed
virtual machine are external collaborators; they are modelled here as explicit
deterministic operations passed to the generator, while the orchestration code
itself is translated from the source.
-/

set_option maxHeartbeats 1000000

deriving instance DecidableEq for Except

namespace Godwoken

/-- 256-bit cell value (gw_common H256), modelled by its numeric value. -/
abbrev H256 := Nat

/-- Conversion of a u32 into a cell value (gw_common H256Ext::from_u32). -/
def H256.from_u32 (n : Nat) : H256 := n

/-- Modulus of u32 arithmetic. -/
def U32_MOD : Nat := 4294967296

/-- Storage cell key. Modelled from the spec: field keys are derived from the
account id and a purpose tag so that distinct accounts and distinct purposes
never collide; the key is represented as the pair itself, which is collision
free by construction. -/
abbrev RawKey := Nat × Nat

/-- Purpose tag of the nonce cell (gw_common GW_ACCOUNT_NONCE). -/
def GW_ACCOUNT_NONCE : Nat := 1

/-- Modelled from the spec: deterministic, collision-free derivation of an
account field key from the account id and the purpose tag
(gw_common build_account_field_key). -/
def build_account_field_key (account_id : Nat) (field_type : Nat) : RawKey :=
  (account_id, field_type)

/-- Key-value map used for the read and write journals, as an association list
with replace-on-insert semantics (last write wins). -/
def KVMap : Type := List (RawKey × H256)

instance : DecidableEq KVMap := by
  unfold KVMap
  infer_instance

/-- Empty journal map. -/
def KVMap.empty : KVMap := []

/-- Look a key up in a journal map. -/
def KVMap.get (m : KVMap) (k : RawKey) : Option H256 :=
  match m with
  | [] => none
  | (k1, v1) :: rest => if k1 = k then some v1 else KVMap.get rest k

/-- Insert a binding in a journal map, replacing any previous binding of the
same key. -/
def KVMap.insert (m : KVMap) (k : RawKey) (v : H256) : KVMap :=
  match m with
  | [] => [(k, v)]
  | (k1, v1) :: rest =>
    if k1 = k then (k, v) :: rest else (k1, v1) :: KVMap.insert rest k v

/-- Modelled from the spec: the per-transaction journal produced by one
sandboxed execution (crates/generator syscalls RunResult): the read set, the
write set, the return data and the emitted logs. -/
structure RunResult where
  read_values : KVMap
  write_values : KVMap
  return_data : List Nat
  logs : List (List Nat)
deriving DecidableEq

/-- Fresh empty journal (RunResult::default()). -/
def RunResult.default : RunResult :=
  { read_values := KVMap.empty, write_values := KVMap.empty
    return_data := [], logs := [] }

/-- Script hash type (gw_types core ScriptHashType). -/
inductive ScriptHashType where
  | Data : ScriptHashType
  | TypeHash : ScriptHashType
deriving DecidableEq

/-- Account script (gw_types packed Script): code hash, hash type, args. -/
structure Script where
  code_hash : H256
  hash_type : ScriptHashType
  args : List Nat
deriving DecidableEq

/-- Modelled from the spec: an immutable pairing of a code identity with the
executable program bytes implementing that account type (validator and
generator programs). -/
structure Backend where
  validator : List Nat
  generator : List Nat
deriving DecidableEq

/-- Modelled from the spec: the immutable backend registry, mapping a 32-byte
code hash to a backend by exact equality. -/
structure BackendManage where
  backends : List (H256 × Backend)
deriving DecidableEq

/-- Exact-hash lookup in the backend registry (BackendManage::get_backend). -/
def BackendManage.get_backend (bm : BackendManage) (code_hash : H256) :
    Option Backend :=
  (bm.backends.find? (fun p => p.1 == code_hash)).map (fun p => p.2)

/-- Modelled from the spec: errors surfaced by the account-state collaborator
(gw_common error: missing item, encoding, Merkle verification and similar
failures, abstracted by a code). -/
inductive StateError where
  | missingItem : StateError
  | other : Nat → StateError
deriving DecidableEq

/-- Modelled from the spec: a fault raised by the sandboxed machine while
loading or running a program, abstracted by a code. -/
inductive VMError where
  | fault : Nat → VMError
deriving DecidableEq

/-- Modelled from the spec: typed transaction-level errors of the generator
(crates/generator error TransactionError). -/
inductive TransactionError where
  | Backend : (account_id : Nat) → TransactionError
  | InvalidExitCode : Int → TransactionError
  | Nonce : (expected : Nat) → (actual : Nat) → TransactionError
  | State : StateError → TransactionError
  | VM : VMError → TransactionError
deriving DecidableEq

/-- Challenge context identifying one contested transaction
(gw_types packed StartChallenge): block hash, block number, tx index. -/
structure StartChallenge where
  block_hash : H256
  block_number : Nat
  tx_index : Nat
deriving DecidableEq

/-- Transaction error paired with the challenge context of the offending
transaction (crates/generator error TransactionErrorWithContext). -/
structure TransactionErrorWithContext where
  context : StartChallenge
  error : TransactionError
deriving DecidableEq

/-- Modelled from the spec: block-level error of the generator
(crates/generator error Error): a state-layer error or a transaction error
with its challenge context. -/
inductive Error where
  | State : StateError → Error
  | Transaction : TransactionErrorWithContext → Error
deriving DecidableEq

/-- Deposition request (generator.rs DepositionRequest). -/
structure DepositionRequest where
  script : Script
  sudt_script : Script
  amount : Nat
deriving DecidableEq

/-- Withdrawal request (generator.rs WithdrawalRequest). -/
structure WithdrawalRequest where
  lock_hash : H256
  sudt_script_hash : H256
  amount : Nat
  account_script_hash : H256
deriving DecidableEq

/-- Raw layer-2 transaction (gw_types packed RawL2Transaction): sender id,
receiver id, nonce, argument bytes. -/
structure RawL2Transaction where
  from_id : Nat
  to_id : Nat
  nonce : Nat
  args : List Nat
deriving DecidableEq

/-- Layer-2 transaction; only its raw part is consumed by the generator. -/
structure L2Transaction where
  raw : RawL2Transaction
deriving DecidableEq

/-- Submitted-transactions witness of a raw block (gw_types packed
SubmitTransactions); the generator only tests its presence. -/
structure SubmitTransactions where
  tx_count : Nat
deriving DecidableEq

/-- Raw layer-2 block metadata consumed by the generator. -/
structure RawL2Block where
  number : Nat
  aggregator_id : Nat
  timestamp : Nat
  submit_transactions : Option SubmitTransactions
deriving DecidableEq

/-- Modelled from the spec: the content digest of a raw block
(the source hashes the molecule serialization of the raw block; any fixed
deterministic digest of the content serves the properties below). -/
def RawL2Block.hash (b : RawL2Block) : H256 :=
  Nat.pair b.number
    (Nat.pair b.aggregator_id
      (Nat.pair b.timestamp (if b.submit_transactions.isSome then 1 else 0)))

/-- Layer-2 block: raw metadata plus the transaction list. -/
structure L2Block where
  raw : RawL2Block
  transactions : List L2Transaction
deriving DecidableEq

/-- Arguments of one state transition (generator.rs StateTransitionArgs). -/
structure StateTransitionArgs where
  l2block : L2Block
  deposition_requests : List DepositionRequest
  withdrawal_requests : List WithdrawalRequest
deriving DecidableEq

/-- Block info shared by the transactions of one block
(gw_types packed BlockInfo). -/
structure BlockInfo where
  aggregator_id : Nat
  number : Nat
  timestamp : Nat
deriving DecidableEq

/-- Modelled from the spec: the account-state and code-store capability
consumed by the generator (the State, CodeStore and StateExt traits), as
explicit deterministic operations over an abstract state type. Mutating
operations return the possibly mutated state together with the outcome,
mirroring methods that take a mutable reference. -/
structure StateOps (σ : Type) where
  get_nonce : σ → Nat → Except StateError Nat
  get_script_hash : σ → Nat → Except StateError H256
  get_script : σ → H256 → Option Script
  apply_withdrawal_requests :
    σ → List WithdrawalRequest → Nat → σ × Except StateError Unit
  apply_deposition_requests :
    σ → List DepositionRequest → σ × Except StateError Unit
  apply_run_result : σ → RunResult → σ × Except StateError Unit

/-- Modelled from the spec: one sandboxed run of a backend program under the
syscall bridge. The run observes the read-only state, the block info, the
transaction and the loaded backend program, starts from the given journal and
returns the populated journal together with the exit code, or a fault. The
state itself is only read, never written, during the run. -/
structure VM (σ : Type) where
  run : σ → BlockInfo → RawL2Transaction → Backend → RunResult →
    Except VMError (RunResult × Int)

/-- The generator (generator.rs Generator): holds the backend registry. -/
structure Generator where
  backend_manage : BackendManage

/-- Construction of a generator from a backend registry (Generator::new). -/
def Generator.new (backend_manage : BackendManage) : Generator :=
  { backend_manage := backend_manage }

/-- Shared block context derived once per block (generator.rs get_block_info). -/
def get_block_info (l2block : RawL2Block) : BlockInfo :=
  { aggregator_id := l2block.aggregator_id
    number := l2block.number
    timestamp := l2block.timestamp }

variable {σ : Type}

/-- Backend resolution (generator.rs Generator::load_backend): read the script
hash of the account, resolve the script, and only when the script hash type is
Data look its code hash up in the backend registry. -/
def Generator.load_backend (g : Generator) (ops : StateOps σ) (state : σ)
    (account_id : Nat) : Except StateError (Option Backend) :=
  match ops.get_script_hash state account_id with
  | .error e => .error e
  | .ok script_hash =>
    .ok ((ops.get_script state script_hash).bind (fun script =>
      if script.hash_type = ScriptHashType.Data then
        g.backend_manage.get_backend script.code_hash
      else
        none))

/-- Nonce reconciliation at the end of a successful execution
(generator.rs Generator::execute, the set-nonce tail): seed the read set with
the pre-execution nonce when the run did not read the nonce cell, then
unconditionally write the incremented nonce (u32 addition) to the write set. -/
def set_nonce (run_result : RunResult) (sender_id : Nat) (nonce : Nat) :
    RunResult :=
  let nonce_raw_key := build_account_field_key sender_id GW_ACCOUNT_NONCE
  let seeded :=
    if (run_result.read_values.get nonce_raw_key).isNone then
      { run_result with
        read_values :=
          run_result.read_values.insert nonce_raw_key (H256.from_u32 nonce) }
    else
      run_result
  { seeded with
    write_values :=
      seeded.write_values.insert nonce_raw_key
        (H256.from_u32 ((nonce + 1) % U32_MOD)) }

/-- Execution of one layer-2 transaction (generator.rs Generator::execute):
resolve the backend of the receiver account, run its generator program in the
sandbox against a fresh journal, require exit code zero, then reconcile the
sender nonce in the journal. The account state is only read. -/
def Generator.execute (g : Generator) (ops : StateOps σ) (vm : VM σ)
    (state : σ) (block_info : BlockInfo) (raw_tx : RawL2Transaction) :
    Except TransactionError RunResult :=
  let run_result := RunResult.default
  let account_id := raw_tx.to_id
  match g.load_backend ops state account_id with
  | .error e => .error (.State e)
  | .ok none => .error (.Backend account_id)
  | .ok (some backend) =>
    match vm.run state block_info raw_tx backend run_result with
    | .error e => .error (.VM e)
    | .ok (run_result, code) =>
      if code ≠ 0 then
        .error (.InvalidExitCode code)
      else
        match ops.get_nonce state raw_tx.from_id with
        | .error e => .error (.State e)
        | .ok nonce => .ok (set_nonce run_result raw_tx.from_id nonce)

/-- The transaction loop of apply_state_transition (generator.rs lines 85-115):
for each transaction in order, build the challenge context, check the nonce,
execute, and commit the journal; the first failure aborts with the state
reached so far. -/
def Generator.apply_transactions (g : Generator) (ops : StateOps σ) (vm : VM σ)
    (block_hash : H256) (block_info : BlockInfo) (state : σ) :
    List L2Transaction → Nat → σ × Except Error Unit
  | [], _ => (state, .ok ())
  | tx :: rest, tx_index =>
    let raw_tx := tx.raw
    let challenge_context : StartChallenge :=
      { block_hash := block_hash
        block_number := block_info.number
        tx_index := tx_index }
    match ops.get_nonce state raw_tx.from_id with
    | .error e => (state, .error (.State e))
    | .ok expected_nonce =>
      let actual_nonce := raw_tx.nonce
      if actual_nonce ≠ expected_nonce then
        (state, .error (.Transaction
          { context := challenge_context
            error := .Nonce expected_nonce actual_nonce }))
      else
        match g.execute ops vm state block_info raw_tx with
        | .error err =>
          (state, .error (.Transaction
            { context := challenge_context, error := err }))
        | .ok run_result =>
          match ops.apply_run_result state run_result with
          | (state1, .error e) => (state1, .error (.State e))
          | (state1, .ok ()) =>
            Generator.apply_transactions g ops vm block_hash block_info state1
              rest (tx_index + 1)

/-- Application of one layer-2 state transition
(generator.rs Generator::apply_state_transition): apply the withdrawal
requests, then the deposition requests, and when the raw block declares
submitted transactions, run the transaction loop from index zero. The final
state is returned together with the outcome, mirroring the mutable state
reference of the source. -/
def Generator.apply_state_transition (g : Generator) (ops : StateOps σ)
    (vm : VM σ) (state : σ) (args : StateTransitionArgs) :
    σ × Except Error Unit :=
  let raw_block := args.l2block.raw
  match ops.apply_withdrawal_requests state args.withdrawal_requests
      raw_block.number with
  | (state1, .error e) => (state1, .error (.State e))
  | (state1, .ok ()) =>
    match ops.apply_deposition_requests state1 args.deposition_requests with
    | (state2, .error e) => (state2, .error (.State e))
    | (state2, .ok ()) =>
      if raw_block.submit_transactions.isSome then
        let block_info := get_block_info raw_block
        let block_hash := raw_block.hash
        g.apply_transactions ops vm block_hash block_info state2
          args.l2block.transactions 0
      else
        (state2, .ok ())

/-
Test fixture: a concrete instance of the account-state capability, used to
evaluate the theorems below on concrete inputs.
-/

/-- Concrete account state used as a test fixture: a cell map plus the script
tables needed by backend resolution. -/
structure ModelState where
  cells : KVMap
  script_hashes : List (Nat × H256)
  scripts : List (H256 × Script)
deriving DecidableEq

/-- Modelled from the spec: account-state capability instance over an explicit
cell map. Reading an absent cell yields the zero value, the nonce lives in the
cell keyed by build_account_field_key with GW_ACCOUNT_NONCE, and committing a
run result inserts its write set into the cell map. Withdrawal and deposition
application are identities here; the fixtures below exercise them only with
empty request lists, and the ordering fixture supplies its own operations. -/
def modelOps : StateOps ModelState where
  get_nonce := fun s id =>
    .ok ((s.cells.get (build_account_field_key id GW_ACCOUNT_NONCE)).getD 0)
  get_script_hash := fun s id =>
    match s.script_hashes.find? (fun p => p.1 == id) with
    | some p => .ok p.2
    | none => .error .missingItem
  get_script := fun s h =>
    (s.scripts.find? (fun p => p.1 == h)).map (fun p => p.2)
  apply_withdrawal_requests := fun s _ _ => (s, .ok ())
  apply_deposition_requests := fun s _ => (s, .ok ())
  apply_run_result := fun s rr =>
    ({ s with
        cells := rr.write_values.foldl (fun c kv => c.insert kv.1 kv.2) s.cells },
      .ok ())

/-- Fixture backend registered under code hash 55. -/
def backendW : Backend := { validator := [0], generator := [1] }

/-- Fixture generator whose registry maps code hash 55 to the fixture
backend. -/
def gW : Generator := Generator.new { backends := [(55, backendW)] }

/-- Fixture script of the receiver account: data hash type, code hash 55. -/
def scriptW : Script :=
  { code_hash := 55, hash_type := ScriptHashType.Data, args := [] }

/-- Fixture script with a non-data hash type, registered code hash 55. -/
def scriptTW : Script :=
  { code_hash := 55, hash_type := ScriptHashType.TypeHash, args := [] }

/-- Fixture state: account 2 has script hash 77 resolving to the data-type
fixture script, account 4 has script hash 88 resolving to the non-data
fixture script; all cells are absent (so every nonce reads zero). -/
def sW : ModelState :=
  { cells := []
    script_hashes := [(2, 77), (4, 88)]
    scripts := [(77, scriptW), (88, scriptTW)] }

/-- Fixture sandbox: the run writes value 42 into cell 5 of the receiver
account and exits with code zero. -/
def vmW : VM ModelState :=
  { run := fun _ _ tx _ rr =>
      .ok ({ rr with write_values := rr.write_values.insert (tx.to_id, 5) 42 }, 0) }

/-- Fixture block info. -/
def biW : BlockInfo := { aggregator_id := 3, number := 7, timestamp := 11 }

/-- Fixture transaction from account 1 to account 2 with nonce 0. -/
def txW : RawL2Transaction := { from_id := 1, to_id := 2, nonce := 0, args := [] }

/-- Journal produced by the fixture sandbox on the fixture transaction. -/
def rrW : RunResult :=
  { read_values := [], write_values := [((2, 5), 42)]
    return_data := [], logs := [] }

/-
Journal map lemmas.
-/

/-- Looking up the key just inserted yields the inserted value. -/
theorem KVMap.get_insert_self (m : KVMap) (k : RawKey) (v : H256) :
    (m.insert k v).get k = some v := by
  induction m with
  | nil => simp [KVMap.insert, KVMap.get]
  | cons head tail ih =>
    obtain ⟨k1, v1⟩ := head
    by_cases h : k1 = k
    · simp [KVMap.insert, KVMap.get, h]
    · simp [KVMap.insert, KVMap.get, h, ih]

/-- Nonce reconciliation stores the incremented nonce (u32 addition) in the
write set at the nonce cell key of the sender. -/
theorem set_nonce_write_get (rr : RunResult) (sid : Nat) (n : Nat) :
    (set_nonce rr sid n).write_values.get
        (build_account_field_key sid GW_ACCOUNT_NONCE) =
      some (H256.from_u32 ((n + 1) % U32_MOD)) := by
  by_cases h :
      (rr.read_values.get (build_account_field_key sid GW_ACCOUNT_NONCE)).isNone <;>
    simp [set_nonce, h, KVMap.get_insert_self]

/-- When the run did not read the nonce cell, reconciliation seeds the read
set with the pre-execution nonce. -/
theorem set_nonce_read_of_none (rr : RunResult) (sid : Nat) (n : Nat)
    (h : rr.read_values.get (build_account_field_key sid GW_ACCOUNT_NONCE) = none) :
    (set_nonce rr sid n).read_values.get
        (build_account_field_key sid GW_ACCOUNT_NONCE) =
      some (H256.from_u32 n) := by
  simp [set_nonce, h, KVMap.get_insert_self]

/-- When the run did read the nonce cell, reconciliation leaves the first
observed value in the read set untouched. -/
theorem set_nonce_read_of_some (rr : RunResult) (sid : Nat) (n : Nat)
    (v : H256)
    (h : rr.read_values.get (build_account_field_key sid GW_ACCOUNT_NONCE) = some v) :
    (set_nonce rr sid n).read_values.get
        (build_account_field_key sid GW_ACCOUNT_NONCE) = some v := by
  simp [set_nonce, h]

/-- Claim C1: for every transaction whose sandboxed run exits with code 0,
execute returns a RunResult whose write set maps the sender nonce cell key
(build_account_field_key from_id GW_ACCOUNT_NONCE) to the pre-execution nonce
plus 1, and whose read set contains the pre-execution nonce at that key,
seeded by execute when the run itself did not read it and left as the first
observed value otherwise; so every successful execution advances the sender
nonce by exactly one. -/
theorem execute_advances_nonce (g : Generator) (ops : StateOps σ) (vm : VM σ)
    (state : σ) (block_info : BlockInfo) (raw_tx : RawL2Transaction)
    (backend : Backend) (rr : RunResult) (n : Nat)
    (h_backend : g.load_backend ops state raw_tx.to_id = .ok (some backend))
    (h_run : vm.run state block_info raw_tx backend RunResult.default = .ok (rr, 0))
    (h_nonce : ops.get_nonce state raw_tx.from_id = .ok n)
    (h_lt : n + 1 < U32_MOD) :
    ∃ res, g.execute ops vm state block_info raw_tx = .ok res ∧
      res.write_values.get (build_account_field_key raw_tx.from_id GW_ACCOUNT_NONCE) =
        some (H256.from_u32 (n + 1)) ∧
      (rr.read_values.get (build_account_field_key raw_tx.from_id GW_ACCOUNT_NONCE) = none →
        res.read_values.get (build_account_field_key raw_tx.from_id GW_ACCOUNT_NONCE) =
          some (H256.from_u32 n)) ∧
      (∀ v, rr.read_values.get (build_account_field_key raw_tx.from_id GW_ACCOUNT_NONCE) = some v →
        res.read_values.get (build_account_field_key raw_tx.from_id GW_ACCOUNT_NONCE) = some v) := by
  refine ⟨set_nonce rr raw_tx.from_id n, ?_, ?_, ?_, ?_⟩
  · simp [Generator.execute, h_backend, h_run, h_nonce]
  · rw [set_nonce_write_get, Nat.mod_eq_of_lt h_lt]
  · intro h
    exact set_nonce_read_of_none rr raw_tx.from_id n h
  · intro v h
    exact set_nonce_read_of_some rr raw_tx.from_id n v h

/-- Witness for claim C1: on the fixture, the sandboxed run exits with code 0
and the returned journal maps the nonce cell of sender 1 to 1 in the write set
and to the seeded pre-execution nonce 0 in the read set. -/
theorem execute_advances_nonce_witness :
    gW.load_backend modelOps sW txW.to_id = .ok (some backendW) ∧
    vmW.run sW biW txW backendW RunResult.default = .ok (rrW, 0) ∧
    modelOps.get_nonce sW txW.from_id = .ok 0 ∧
    ∃ res, gW.execute modelOps vmW sW biW txW = .ok res ∧
      res.write_values.get (build_account_field_key txW.from_id GW_ACCOUNT_NONCE) =
        some (H256.from_u32 (0 + 1)) ∧
      (rrW.read_values.get (build_account_field_key txW.from_id GW_ACCOUNT_NONCE) = none →
        res.read_values.get (build_account_field_key txW.from_id GW_ACCOUNT_NONCE) =
          some (H256.from_u32 0)) ∧
      (∀ v, rrW.read_values.get (build_account_field_key txW.from_id GW_ACCOUNT_NONCE) = some v →
        res.read_values.get (build_account_field_key txW.from_id GW_ACCOUNT_NONCE) = some v) :=
  ⟨by decide, by decide, by decide,
    execute_advances_nonce gW modelOps vmW sW biW txW backendW rrW 0
      (by decide) (by decide) (by decide) (by decide)⟩

/-- Fixture transaction targeting account 4, whose script is not of the data
hash type. -/
def txTW : RawL2Transaction := { from_id := 1, to_id := 4, nonce := 0, args := [] }

/-- Fixture sandbox whose run exits with code 3. -/
def vmBad : VM ModelState := { run := fun _ _ _ _ rr => .ok (rr, 3) }

/-- Fixture state in which the nonce cell of account 1 holds the maximal u32
value. -/
def sMax : ModelState :=
  { cells := [(build_account_field_key 1 GW_ACCOUNT_NONCE, 4294967295)]
    script_hashes := [(2, 77), (4, 88)]
    scripts := [(77, scriptW), (88, scriptTW)] }

/-- Claim C5: load_backend returns a backend only when the script of the
account exists, its hash type is Data and its code hash is registered; a
script with a non-data hash type never resolves to a backend, and execute on a
transaction targeting such an account fails with a Backend error naming the
receiver account id. -/
theorem load_backend_requires_data_hash_type (g : Generator) (ops : StateOps σ)
    (state : σ) (account_id : Nat) :
    (∀ b, g.load_backend ops state account_id = .ok (some b) →
      ∃ h script, ops.get_script_hash state account_id = .ok h ∧
        ops.get_script state h = some script ∧
        script.hash_type = ScriptHashType.Data ∧
        g.backend_manage.get_backend script.code_hash = some b) ∧
    (∀ h script, ops.get_script_hash state account_id = .ok h →
      ops.get_script state h = some script →
      script.hash_type ≠ ScriptHashType.Data →
      g.load_backend ops state account_id = .ok none) ∧
    (∀ (vm : VM σ) (block_info : BlockInfo) (raw_tx : RawL2Transaction),
      raw_tx.to_id = account_id →
      g.load_backend ops state account_id = .ok none →
      g.execute ops vm state block_info raw_tx = .error (.Backend account_id)) := by
  refine ⟨?_, ?_, ?_⟩
  · intro b hb
    unfold Generator.load_backend at hb
    match h1 : ops.get_script_hash state account_id with
    | .error e => simp [h1] at hb
    | .ok sh =>
      simp only [h1] at hb
      match h2 : ops.get_script state sh with
      | none => simp [h2] at hb
      | some script =>
        simp only [h2, Except.ok.injEq] at hb
        by_cases h3 : script.hash_type = ScriptHashType.Data
        · refine ⟨sh, script, rfl, h2, h3, ?_⟩
          simpa [h3] using hb
        · simp [h3] at hb
  · intro h script h1 h2 h3
    simp [Generator.load_backend, h1, h2, h3]
  · intro vm block_info raw_tx h_to h_none
    simp [Generator.execute, h_to, h_none]

/-- Witness for claim C5: on the fixture, account 4 resolves to a script with
a non-data hash type, load_backend yields no backend, and execute on the
transaction targeting account 4 fails with a Backend error naming it. -/
theorem load_backend_requires_data_hash_type_witness :
    modelOps.get_script_hash sW 4 = .ok 88 ∧
    modelOps.get_script sW 88 = some scriptTW ∧
    scriptTW.hash_type ≠ ScriptHashType.Data ∧
    gW.load_backend modelOps sW 4 = .ok none ∧
    gW.execute modelOps vmW sW biW txTW = .error (.Backend 4) :=
  ⟨by decide, by decide, by decide,
    (load_backend_requires_data_hash_type gW modelOps sW 4).2.1 88 scriptTW
      (by decide) (by decide) (by decide),
    (load_backend_requires_data_hash_type gW modelOps sW 4).2.2 vmW biW txTW
      (by decide)
      ((load_backend_requires_data_hash_type gW modelOps sW 4).2.1 88 scriptTW
        (by decide) (by decide) (by decide))⟩

/-- Claim C7: for every transaction whose sandboxed run terminates with a
non-zero exit code, execute returns an InvalidExitCode error carrying that
exit code, and no RunResult is returned. -/
theorem execute_nonzero_exit_code (g : Generator) (ops : StateOps σ)
    (vm : VM σ) (state : σ) (block_info : BlockInfo)
    (raw_tx : RawL2Transaction) (backend : Backend) (rr : RunResult)
    (code : Int)
    (h_backend : g.load_backend ops state raw_tx.to_id = .ok (some backend))
    (h_run : vm.run state block_info raw_tx backend RunResult.default = .ok (rr, code))
    (h_code : code ≠ 0) :
    g.execute ops vm state block_info raw_tx = .error (.InvalidExitCode code) := by
  simp [Generator.execute, h_backend, h_run, h_code]

/-- Witness for claim C7: on the fixture sandbox exiting with code 3, execute
fails with InvalidExitCode 3. -/
theorem execute_nonzero_exit_code_witness :
    gW.load_backend modelOps sW txW.to_id = .ok (some backendW) ∧
    vmBad.run sW biW txW backendW RunResult.default = .ok (RunResult.default, 3) ∧
    (3 : Int) ≠ 0 ∧
    gW.execute modelOps vmBad sW biW txW = .error (.InvalidExitCode 3) :=
  ⟨by decide, by decide, by decide,
    execute_nonzero_exit_code gW modelOps vmBad sW biW txW backendW
      RunResult.default 3 (by decide) (by decide) (by decide)⟩

/-- State-transformer view of execute: the source function borrows the account
state immutably, so the call leaves the state exactly as given and returns it
unchanged alongside the result; the state can change only when the caller
separately applies the returned RunResult. -/
def Generator.execute_mut (g : Generator) (ops : StateOps σ) (vm : VM σ)
    (state : σ) (block_info : BlockInfo) (raw_tx : RawL2Transaction) :
    σ × Except TransactionError RunResult :=
  (state, g.execute ops vm state block_info raw_tx)

/-- Claim C8: a standalone call to execute never mutates the account state,
whether it returns a RunResult or an error: the state component of the
state-transformer view of execute equals the input state for every input. -/
theorem execute_never_mutates_state (g : Generator) (ops : StateOps σ)
    (vm : VM σ) (state : σ) (block_info : BlockInfo)
    (raw_tx : RawL2Transaction) :
    (g.execute_mut ops vm state block_info raw_tx).1 = state := rfl

/-- Claim C10: when the pre-execution nonce of the sender equals the maximal
u32 value, the nonce increment in execute is unchecked u32 addition: execute
still returns a RunResult (no typed arithmetic-overflow error), and the value
stored in the write set at the nonce cell is the wrapped result 0. -/
theorem execute_nonce_wraps_at_u32_max (g : Generator) (ops : StateOps σ)
    (vm : VM σ) (state : σ) (block_info : BlockInfo)
    (raw_tx : RawL2Transaction) (backend : Backend) (rr : RunResult)
    (h_backend : g.load_backend ops state raw_tx.to_id = .ok (some backend))
    (h_run : vm.run state block_info raw_tx backend RunResult.default = .ok (rr, 0))
    (h_nonce : ops.get_nonce state raw_tx.from_id = .ok (U32_MOD - 1)) :
    ∃ res, g.execute ops vm state block_info raw_tx = .ok res ∧
      res.write_values.get (build_account_field_key raw_tx.from_id GW_ACCOUNT_NONCE) =
        some (H256.from_u32 0) := by
  refine ⟨set_nonce rr raw_tx.from_id (U32_MOD - 1), ?_, ?_⟩
  · simp [Generator.execute, h_backend, h_run, h_nonce]
  · rw [set_nonce_write_get]
    norm_num [U32_MOD]

/-- Witness for claim C10: on the fixture state whose account 1 nonce cell
holds 4294967295, execute succeeds and writes the wrapped nonce 0. -/
theorem execute_nonce_wraps_at_u32_max_witness :
    gW.load_backend modelOps sMax txW.to_id = .ok (some backendW) ∧
    vmW.run sMax biW txW backendW RunResult.default = .ok (rrW, 0) ∧
    modelOps.get_nonce sMax txW.from_id = .ok (U32_MOD - 1) ∧
    ∃ res, gW.execute modelOps vmW sMax biW txW = .ok res ∧
      res.write_values.get (build_account_field_key txW.from_id GW_ACCOUNT_NONCE) =
        some (H256.from_u32 0) :=
  ⟨by decide, by decide, by decide,
    execute_nonce_wraps_at_u32_max gW modelOps vmW sMax biW txW backendW rrW
      (by decide) (by decide) (by decide)⟩

/-
Block-level fixtures.
-/

/-- Fixture raw block that declares submitted transactions. -/
def rawBW : RawL2Block :=
  { number := 7, aggregator_id := 3, timestamp := 11
    submit_transactions := some { tx_count := 2 } }

/-- Fixture transaction from account 1 with the wrong nonce 99. -/
def tx1W : RawL2Transaction := { from_id := 1, to_id := 2, nonce := 99, args := [] }

/-- Fixture block carrying a valid transaction followed by a transaction with
the wrong nonce. -/
def blockW : L2Block := { raw := rawBW, transactions := [{ raw := txW }, { raw := tx1W }] }

/-- Fixture state-transition arguments: the fixture block with empty request
lists. -/
def argsW : StateTransitionArgs :=
  { l2block := blockW, deposition_requests := [], withdrawal_requests := [] }

/-- Fixture state after the first fixture transaction committed: cell 5 of
account 2 holds 42 and the nonce cell of account 1 holds 1. -/
def sW1 : ModelState :=
  { cells := [((2, 5), 42), ((1, 1), 1)]
    script_hashes := [(2, 77), (4, 88)]
    scripts := [(77, scriptW), (88, scriptTW)] }

/-- Processing a list of transactions that all succeed continues into any
appended suffix from the reached state, with the index advanced by the length
of the processed prefix. -/
theorem apply_transactions_append (g : Generator) (ops : StateOps σ) (vm : VM σ)
    (bh : H256) (bi : BlockInfo) (pre : List L2Transaction) :
    ∀ (rest : List L2Transaction) (s s' : σ) (i : Nat),
      g.apply_transactions ops vm bh bi s pre i = (s', .ok ()) →
      g.apply_transactions ops vm bh bi s (pre ++ rest) i =
        g.apply_transactions ops vm bh bi s' rest (i + pre.length) := by
  induction pre with
  | nil =>
    intro rest s s' i h
    simp only [Generator.apply_transactions] at h
    injection h with h1 h2
    subst h1
    simp
  | cons tx pre ih =>
    intro rest s s' i h
    simp only [List.cons_append]
    simp only [Generator.apply_transactions] at h ⊢
    match h1 : ops.get_nonce s tx.raw.from_id with
    | .error e => simp [h1] at h
    | .ok n =>
      simp only [h1] at h ⊢
      by_cases h2 : tx.raw.nonce ≠ n
      · rw [if_pos h2] at h
        simp at h
      · rw [if_neg h2] at h ⊢
        match h3 : g.execute ops vm s bi tx.raw with
        | .error err => simp [h3] at h
        | .ok rr =>
          simp only [h3] at h ⊢
          match h4 : ops.apply_run_result s rr with
          | (s2, .error e) => simp [h4] at h
          | (s2, .ok ()) =>
            simp only [h4] at h ⊢
            rw [ih rest s2 s' (i + 1) h]
            simp only [List.length_cons]
            congr 1
            omega

/-- Claim C3: when the transaction reached at index k embeds a nonce different
from the state nonce of its sender at that point, apply_state_transition
aborts without committing that transaction and returns a Nonce error carrying
the expected state nonce and the actual embedded nonce, wrapped in a
challenge context holding the block hash, the block number and the index k. -/
theorem apply_state_transition_nonce_mismatch (g : Generator)
    (ops : StateOps σ) (vm : VM σ) (state s1 s2 s' : σ)
    (args : StateTransitionArgs) (pre post : List L2Transaction)
    (tx : L2Transaction) (n : Nat)
    (h_sub : args.l2block.raw.submit_transactions.isSome = true)
    (h_w : ops.apply_withdrawal_requests state args.withdrawal_requests
      args.l2block.raw.number = (s1, .ok ()))
    (h_d : ops.apply_deposition_requests s1 args.deposition_requests = (s2, .ok ()))
    (h_txs : args.l2block.transactions = pre ++ tx :: post)
    (h_pre : g.apply_transactions ops vm args.l2block.raw.hash
      (get_block_info args.l2block.raw) s2 pre 0 = (s', .ok ()))
    (h_nonce : ops.get_nonce s' tx.raw.from_id = .ok n)
    (h_ne : tx.raw.nonce ≠ n) :
    g.apply_state_transition ops vm state args =
      (s', .error (.Transaction
        { context :=
            { block_hash := args.l2block.raw.hash
              block_number := args.l2block.raw.number
              tx_index := pre.length }
          error := .Nonce n tx.raw.nonce })) := by
  simp only [Generator.apply_state_transition, h_w, h_d, h_sub, if_true, h_txs]
  rw [apply_transactions_append g ops vm args.l2block.raw.hash
    (get_block_info args.l2block.raw) pre (tx :: post) s2 s' 0 h_pre]
  simp only [Generator.apply_transactions, h_nonce]
  rw [if_pos h_ne]
  simp [get_block_info]

/-- Witness for claim C3: on the fixture block, the first transaction commits,
the second carries nonce 99 while the state nonce of account 1 is 1, and
apply_state_transition returns the Nonce error with expected 1 and actual 99
under the challenge context at transaction index 1. -/
theorem apply_state_transition_nonce_mismatch_witness :
    argsW.l2block.transactions = [{ raw := txW }] ++ { raw := tx1W } :: [] ∧
    gW.apply_transactions modelOps vmW argsW.l2block.raw.hash
      (get_block_info argsW.l2block.raw) sW [{ raw := txW }] 0 = (sW1, .ok ()) ∧
    modelOps.get_nonce sW1 tx1W.from_id = .ok 1 ∧
    gW.apply_state_transition modelOps vmW sW argsW =
      (sW1, .error (.Transaction
        { context :=
            { block_hash := argsW.l2block.raw.hash
              block_number := argsW.l2block.raw.number
              tx_index := 1 }
          error := .Nonce 1 tx1W.nonce })) :=
  ⟨by decide, by decide, by decide,
    apply_state_transition_nonce_mismatch gW modelOps vmW sW sW sW sW1 argsW
      [{ raw := txW }] [] { raw := tx1W } 1
      (by decide) (by decide) (by decide) (by decide) (by decide) (by decide)
      (by decide)⟩

/-- Counterexample to claim C2: on the fixture block, the transaction at
index 1 fails with a nonce mismatch, yet the write of the transaction at
index 0 (cell 5 of account 2 set to 42) remains applied to the returned
account state, which it was not in before the call. -/
theorem apply_state_transition_partial_commit_remains :
    (gW.apply_state_transition modelOps vmW sW argsW).2 =
      .error (.Transaction
        { context :=
            { block_hash := rawBW.hash, block_number := 7, tx_index := 1 }
          error := .Nonce 1 99 }) ∧
    (gW.apply_state_transition modelOps vmW sW argsW).1.cells.get (2, 5) = some 42 ∧
    sW.cells.get (2, 5) = none := by
  decide

/-- Amended claim C2: when the transaction at index k of a block fails, all
writes already committed for the transactions at indices before k (and the
withdrawal and deposition effects) remain applied to the mutable account
state: apply_state_transition returns exactly the state reached by the failing
transaction loop, with no rollback; atomicity is left to the caller. -/
theorem apply_state_transition_error_keeps_prefix_state (g : Generator)
    (ops : StateOps σ) (vm : VM σ) (state s1 s2 s' sf : σ)
    (args : StateTransitionArgs) (pre post : List L2Transaction)
    (tx : L2Transaction) (e : Error)
    (h_sub : args.l2block.raw.submit_transactions.isSome = true)
    (h_w : ops.apply_withdrawal_requests state args.withdrawal_requests
      args.l2block.raw.number = (s1, .ok ()))
    (h_d : ops.apply_deposition_requests s1 args.deposition_requests = (s2, .ok ()))
    (h_txs : args.l2block.transactions = pre ++ tx :: post)
    (h_pre : g.apply_transactions ops vm args.l2block.raw.hash
      (get_block_info args.l2block.raw) s2 pre 0 = (s', .ok ()))
    (h_fail : g.apply_transactions ops vm args.l2block.raw.hash
      (get_block_info args.l2block.raw) s' (tx :: post) pre.length =
      (sf, .error e)) :
    g.apply_state_transition ops vm state args = (sf, .error e) := by
  simp only [Generator.apply_state_transition, h_w, h_d, h_sub, if_true, h_txs]
  rw [apply_transactions_append g ops vm args.l2block.raw.hash
    (get_block_info args.l2block.raw) pre (tx :: post) s2 s' 0 h_pre]
  rw [Nat.zero_add]
  exact h_fail

/-- Witness for the amended claim C2: on the fixture block the failing loop
state sW1 holds the committed write of transaction 0 and differs from the
initial state, and apply_state_transition returns it unchanged together with
the nonce error. -/
theorem apply_state_transition_error_keeps_prefix_state_witness :
    sW1 ≠ sW ∧
    sW1.cells.get (2, 5) = some 42 ∧
    gW.apply_state_transition modelOps vmW sW argsW =
      (sW1, .error (.Transaction
        { context :=
            { block_hash := argsW.l2block.raw.hash
              block_number := 7
              tx_index := 1 }
          error := .Nonce 1 99 })) :=
  ⟨by decide, by decide,
    apply_state_transition_error_keeps_prefix_state gW modelOps vmW sW sW sW
      sW1 sW1 argsW [{ raw := txW }] [] { raw := tx1W }
      (.Transaction
        { context :=
            { block_hash := argsW.l2block.raw.hash
              block_number := 7
              tx_index := 1 }
          error := .Nonce 1 99 })
      (by decide) (by decide) (by decide) (by decide) (by decide) (by decide)⟩

/-- Claim C4: apply_state_transition applies the withdrawal requests to the
initial state, applies the deposition requests to the state produced by the
withdrawals, and only then checks and executes the transactions of the block
on the state produced by the depositions; withdrawals therefore apply strictly
before depositions, and depositions strictly before any transaction. -/
theorem apply_state_transition_ordering (g : Generator) (ops : StateOps σ)
    (vm : VM σ) (state s1 s2 : σ) (args : StateTransitionArgs)
    (h_w : ops.apply_withdrawal_requests state args.withdrawal_requests
      args.l2block.raw.number = (s1, .ok ()))
    (h_d : ops.apply_deposition_requests s1 args.deposition_requests = (s2, .ok ())) :
    g.apply_state_transition ops vm state args =
      if args.l2block.raw.submit_transactions.isSome then
        g.apply_transactions ops vm args.l2block.raw.hash
          (get_block_info args.l2block.raw) s2 args.l2block.transactions 0
      else
        (s2, .ok ()) := by
  simp only [Generator.apply_state_transition, h_w, h_d]

/-- Fixture ops making the order of request application observable: the
withdrawal stage writes a marker cell, and the deposition stage writes a
second marker whose value reads the first one. -/
def orderOps : StateOps ModelState :=
  { modelOps with
    apply_withdrawal_requests := fun s reqs n =>
      ({ s with cells := s.cells.insert (1000, 0) (reqs.length + n) }, .ok ())
    apply_deposition_requests := fun s reqs =>
      let marker := (s.cells.get (1000, 0)).getD 500
      ({ s with cells := s.cells.insert (1000, 1) (marker + reqs.length) }, .ok ()) }

/-- Fixture withdrawal request. -/
def wdW : WithdrawalRequest :=
  { lock_hash := 5, sudt_script_hash := 6, amount := 7, account_script_hash := 8 }

/-- Fixture deposition request. -/
def depW : DepositionRequest :=
  { script := scriptW, sudt_script := scriptW, amount := 100 }

/-- Fixture arguments carrying one withdrawal and one deposition on a block
with no transactions. -/
def argsOrd : StateTransitionArgs :=
  { l2block := { raw := rawBW, transactions := [] }
    deposition_requests := [depW]
    withdrawal_requests := [wdW] }

/-- State after the fixture withdrawal stage: the withdrawal marker reads 8
(one request on block number 7). -/
def sOrd1 : ModelState := { sW with cells := [((1000, 0), 8)] }

/-- State after the fixture deposition stage: the deposition marker reads 9,
the withdrawal marker plus one request, proving it ran after the
withdrawals. -/
def sOrd2 : ModelState := { sW with cells := [((1000, 0), 8), ((1000, 1), 9)] }

/-- Witness for claim C4: on the marker fixture the withdrawal stage produces
sOrd1, the deposition stage maps sOrd1 to sOrd2 (its marker reads the
withdrawal marker), and the transition returns the transaction loop started
from sOrd2. -/
theorem apply_state_transition_ordering_witness :
    orderOps.apply_withdrawal_requests sW argsOrd.withdrawal_requests
      argsOrd.l2block.raw.number = (sOrd1, .ok ()) ∧
    orderOps.apply_deposition_requests sOrd1 argsOrd.deposition_requests =
      (sOrd2, .ok ()) ∧
    gW.apply_state_transition orderOps vmW sW argsOrd = (sOrd2, .ok ()) :=
  ⟨by decide, by decide, by
    rw [apply_state_transition_ordering gW orderOps vmW sW sOrd1 sOrd2 argsOrd
      (by decide) (by decide)]
    decide⟩

/-- Claim C9: when the raw block does not declare submitted transactions,
apply_state_transition skips nonce validation, execution and commit for every
entry of the transaction list of the block, whatever that list is, and
returns success after applying only the withdrawal and deposition requests. -/
theorem apply_state_transition_skips_txs_without_submit (g : Generator)
    (ops : StateOps σ) (vm : VM σ) (state s1 s2 : σ)
    (args : StateTransitionArgs)
    (h_none : args.l2block.raw.submit_transactions = none)
    (h_w : ops.apply_withdrawal_requests state args.withdrawal_requests
      args.l2block.raw.number = (s1, .ok ()))
    (h_d : ops.apply_deposition_requests s1 args.deposition_requests = (s2, .ok ())) :
    ∀ txs : List L2Transaction,
      g.apply_state_transition ops vm state
        { args with l2block := { args.l2block with transactions := txs } } =
        (s2, .ok ()) := by
  intro txs
  simp only [Generator.apply_state_transition, h_w, h_d, h_none]
  simp

/-- Fixture raw block declaring no submitted transactions. -/
def rawBN : RawL2Block :=
  { number := 9, aggregator_id := 3, timestamp := 11, submit_transactions := none }

/-- Fixture arguments on the block without submitted transactions. -/
def argsN : StateTransitionArgs :=
  { l2block := { raw := rawBN, transactions := [] }
    deposition_requests := []
    withdrawal_requests := [] }

/-- Witness for claim C9: on the fixture block without submitted transactions,
even a non-empty transaction list whose entry carries a wrong nonce is
skipped, and the transition succeeds leaving the state untouched. -/
theorem apply_state_transition_skips_txs_without_submit_witness :
    argsN.l2block.raw.submit_transactions = none ∧
    gW.apply_state_transition modelOps vmW sW
      { argsN with l2block := { argsN.l2block with transactions := [{ raw := tx1W }] } } =
      (sW, .ok ()) :=
  ⟨by decide,
    apply_state_transition_skips_txs_without_submit gW modelOps vmW sW sW sW
      argsN (by decide) (by decide) (by decide) [{ raw := tx1W }]⟩

/-
Relational semantics for the determinism claim: the control flow of execute
and apply_state_transition is restated as step rules over an arbitrary
sandbox-run relation, and any two outcomes derivable with the deterministic
(graph) sandbox relation are proved equal, and equal to the functional
embedding.
-/

/-- Relational view of one sandboxed run. -/
def VMRel (σ : Type) : Type :=
  σ → BlockInfo → RawL2Transaction → Backend → RunResult →
    Except VMError (RunResult × Int) → Prop

/-- Graph of a deterministic sandbox: relates the inputs to exactly the run
outcome of the sandbox function. -/
def VM.graph (vm : VM σ) : VMRel σ :=
  fun state block_info raw_tx backend rr out =>
    vm.run state block_info raw_tx backend rr = out

/-- Step rules of execute over an arbitrary sandbox-run relation, mirroring
the control flow of the source: backend resolution, sandboxed run, exit-code
check, nonce reconciliation. -/
inductive ExecuteRel (g : Generator) (ops : StateOps σ) (R : VMRel σ)
    (state : σ) (block_info : BlockInfo) (raw_tx : RawL2Transaction) :
    Except TransactionError RunResult → Prop where
  | load_state_error (e : StateError) :
      g.load_backend ops state raw_tx.to_id = .error e →
      ExecuteRel g ops R state block_info raw_tx (.error (.State e))
  | no_backend :
      g.load_backend ops state raw_tx.to_id = .ok none →
      ExecuteRel g ops R state block_info raw_tx (.error (.Backend raw_tx.to_id))
  | vm_fault (backend : Backend) (e : VMError) :
      g.load_backend ops state raw_tx.to_id = .ok (some backend) →
      R state block_info raw_tx backend RunResult.default (.error e) →
      ExecuteRel g ops R state block_info raw_tx (.error (.VM e))
  | invalid_exit (backend : Backend) (rr : RunResult) (code : Int) :
      g.load_backend ops state raw_tx.to_id = .ok (some backend) →
      R state block_info raw_tx backend RunResult.default (.ok (rr, code)) →
      code ≠ 0 →
      ExecuteRel g ops R state block_info raw_tx (.error (.InvalidExitCode code))
  | nonce_state_error (backend : Backend) (rr : RunResult) (e : StateError) :
      g.load_backend ops state raw_tx.to_id = .ok (some backend) →
      R state block_info raw_tx backend RunResult.default (.ok (rr, 0)) →
      ops.get_nonce state raw_tx.from_id = .error e →
      ExecuteRel g ops R state block_info raw_tx (.error (.State e))
  | success (backend : Backend) (rr : RunResult) (n : Nat) :
      g.load_backend ops state raw_tx.to_id = .ok (some backend) →
      R state block_info raw_tx backend RunResult.default (.ok (rr, 0)) →
      ops.get_nonce state raw_tx.from_id = .ok n →
      ExecuteRel g ops R state block_info raw_tx (.ok (set_nonce rr raw_tx.from_id n))

/-- Step rules of the transaction loop over an arbitrary sandbox-run
relation. -/
inductive ApplyTransactionsRel (g : Generator) (ops : StateOps σ) (R : VMRel σ)
    (bh : H256) (bi : BlockInfo) :
    σ → List L2Transaction → Nat → σ × Except Error Unit → Prop where
  | nil (s : σ) (i : Nat) :
      ApplyTransactionsRel g ops R bh bi s [] i (s, .ok ())
  | nonce_state_error (s : σ) (tx : L2Transaction) (rest : List L2Transaction)
      (i : Nat) (e : StateError) :
      ops.get_nonce s tx.raw.from_id = .error e →
      ApplyTransactionsRel g ops R bh bi s (tx :: rest) i (s, .error (.State e))
  | nonce_mismatch (s : σ) (tx : L2Transaction) (rest : List L2Transaction)
      (i : Nat) (n : Nat) :
      ops.get_nonce s tx.raw.from_id = .ok n →
      tx.raw.nonce ≠ n →
      ApplyTransactionsRel g ops R bh bi s (tx :: rest) i
        (s, .error (.Transaction
          { context := { block_hash := bh, block_number := bi.number, tx_index := i }
            error := .Nonce n tx.raw.nonce }))
  | execute_error (s : σ) (tx : L2Transaction) (rest : List L2Transaction)
      (i : Nat) (n : Nat) (err : TransactionError) :
      ops.get_nonce s tx.raw.from_id = .ok n →
      tx.raw.nonce = n →
      ExecuteRel g ops R s bi tx.raw (.error err) →
      ApplyTransactionsRel g ops R bh bi s (tx :: rest) i
        (s, .error (.Transaction
          { context := { block_hash := bh, block_number := bi.number, tx_index := i }
            error := err }))
  | commit_error (s : σ) (tx : L2Transaction) (rest : List L2Transaction)
      (i : Nat) (n : Nat) (rr : RunResult) (s2 : σ) (e : StateError) :
      ops.get_nonce s tx.raw.from_id = .ok n →
      tx.raw.nonce = n →
      ExecuteRel g ops R s bi tx.raw (.ok rr) →
      ops.apply_run_result s rr = (s2, .error e) →
      ApplyTransactionsRel g ops R bh bi s (tx :: rest) i (s2, .error (.State e))
  | step (s : σ) (tx : L2Transaction) (rest : List L2Transaction) (i : Nat)
      (n : Nat) (rr : RunResult) (s2 : σ) (out : σ × Except Error Unit) :
      ops.get_nonce s tx.raw.from_id = .ok n →
      tx.raw.nonce = n →
      ExecuteRel g ops R s bi tx.raw (.ok rr) →
      ops.apply_run_result s rr = (s2, .ok ()) →
      ApplyTransactionsRel g ops R bh bi s2 rest (i + 1) out →
      ApplyTransactionsRel g ops R bh bi s (tx :: rest) i out

/-- Step rules of the whole state transition over an arbitrary sandbox-run
relation. -/
inductive ApplyStateTransitionRel (g : Generator) (ops : StateOps σ)
    (R : VMRel σ) : σ → StateTransitionArgs → σ × Except Error Unit → Prop where
  | withdrawal_error (state : σ) (args : StateTransitionArgs) (s1 : σ)
      (e : StateError) :
      ops.apply_withdrawal_requests state args.withdrawal_requests
        args.l2block.raw.number = (s1, .error e) →
      ApplyStateTransitionRel g ops R state args (s1, .error (.State e))
  | deposition_error (state : σ) (args : StateTransitionArgs) (s1 s2 : σ)
      (e : StateError) :
      ops.apply_withdrawal_requests state args.withdrawal_requests
        args.l2block.raw.number = (s1, .ok ()) →
      ops.apply_deposition_requests s1 args.deposition_requests = (s2, .error e) →
      ApplyStateTransitionRel g ops R state args (s2, .error (.State e))
  | no_submit (state : σ) (args : StateTransitionArgs) (s1 s2 : σ) :
      ops.apply_withdrawal_requests state args.withdrawal_requests
        args.l2block.raw.number = (s1, .ok ()) →
      ops.apply_deposition_requests s1 args.deposition_requests = (s2, .ok ()) →
      args.l2block.raw.submit_transactions = none →
      ApplyStateTransitionRel g ops R state args (s2, .ok ())
  | with_submit (state : σ) (args : StateTransitionArgs) (s1 s2 : σ)
      (st : SubmitTransactions) (out : σ × Except Error Unit) :
      ops.apply_withdrawal_requests state args.withdrawal_requests
        args.l2block.raw.number = (s1, .ok ()) →
      ops.apply_deposition_requests s1 args.deposition_requests = (s2, .ok ()) →
      args.l2block.raw.submit_transactions = some st →
      ApplyTransactionsRel g ops R args.l2block.raw.hash
        (get_block_info args.l2block.raw) s2 args.l2block.transactions 0 out →
      ApplyStateTransitionRel g ops R state args out

/-- Every outcome derivable for execute with the graph of a deterministic
sandbox equals the outcome of the functional embedding of execute. -/
theorem ExecuteRel_sound (g : Generator) (ops : StateOps σ) (vm : VM σ)
    (state : σ) (block_info : BlockInfo) (raw_tx : RawL2Transaction)
    (out : Except TransactionError RunResult)
    (h : ExecuteRel g ops (VM.graph vm) state block_info raw_tx out) :
    out = g.execute ops vm state block_info raw_tx := by
  cases h with
  | load_state_error e he => simp [Generator.execute, he]
  | no_backend he => simp [Generator.execute, he]
  | vm_fault b e hl hr =>
    simp only [VM.graph] at hr
    simp [Generator.execute, hl, hr]
  | invalid_exit b rr code hl hr hc =>
    simp only [VM.graph] at hr
    simp [Generator.execute, hl, hr, hc]
  | nonce_state_error b rr e hl hr hn =>
    simp only [VM.graph] at hr
    simp [Generator.execute, hl, hr, hn]
  | success b rr n hl hr hn =>
    simp only [VM.graph] at hr
    simp [Generator.execute, hl, hr, hn]

/-- The functional embedding of execute satisfies the execute step rules with
the graph of its sandbox. -/
theorem ExecuteRel_complete (g : Generator) (ops : StateOps σ) (vm : VM σ)
    (state : σ) (block_info : BlockInfo) (raw_tx : RawL2Transaction) :
    ExecuteRel g ops (VM.graph vm) state block_info raw_tx
      (g.execute ops vm state block_info raw_tx) := by
  match hl : g.load_backend ops state raw_tx.to_id with
  | .error e =>
    have hv : g.execute ops vm state block_info raw_tx = .error (.State e) := by
      simp [Generator.execute, hl]
    rw [hv]
    exact ExecuteRel.load_state_error e hl
  | .ok none =>
    have hv : g.execute ops vm state block_info raw_tx =
        .error (.Backend raw_tx.to_id) := by
      simp [Generator.execute, hl]
    rw [hv]
    exact ExecuteRel.no_backend hl
  | .ok (some b) =>
    match hr : vm.run state block_info raw_tx b RunResult.default with
    | .error e =>
      have hv : g.execute ops vm state block_info raw_tx = .error (.VM e) := by
        simp [Generator.execute, hl, hr]
      rw [hv]
      exact ExecuteRel.vm_fault b e hl hr
    | .ok (rr, code) =>
      by_cases hc : code = 0
      · subst hc
        match hn : ops.get_nonce state raw_tx.from_id with
        | .error e =>
          have hv : g.execute ops vm state block_info raw_tx =
              .error (.State e) := by
            simp [Generator.execute, hl, hr, hn]
          rw [hv]
          exact ExecuteRel.nonce_state_error b rr e hl hr hn
        | .ok n =>
          have hv : g.execute ops vm state block_info raw_tx =
              .ok (set_nonce rr raw_tx.from_id n) := by
            simp [Generator.execute, hl, hr, hn]
          rw [hv]
          exact ExecuteRel.success b rr n hl hr hn
      · have hv : g.execute ops vm state block_info raw_tx =
            .error (.InvalidExitCode code) := by
          simp [Generator.execute, hl, hr, hc]
        rw [hv]
        exact ExecuteRel.invalid_exit b rr code hl hr hc

/-- Every outcome derivable for the transaction loop with the graph of a
deterministic sandbox equals the outcome of the functional embedding of the
loop. -/
theorem ApplyTransactionsRel_sound (g : Generator) (ops : StateOps σ)
    (vm : VM σ) (bh : H256) (bi : BlockInfo) (s : σ)
    (txs : List L2Transaction) (i : Nat) (out : σ × Except Error Unit)
    (h : ApplyTransactionsRel g ops (VM.graph vm) bh bi s txs i out) :
    out = g.apply_transactions ops vm bh bi s txs i := by
  induction h with
  | nil s i => simp [Generator.apply_transactions]
  | nonce_state_error s tx rest i e he =>
    simp [Generator.apply_transactions, he]
  | nonce_mismatch s tx rest i n hn hne =>
    simp only [Generator.apply_transactions, hn]
    rw [if_pos hne]
  | execute_error s tx rest i n err hn heq hex =>
    have hv := ExecuteRel_sound g ops vm s bi tx.raw _ hex
    simp only [Generator.apply_transactions, hn]
    rw [if_neg (by simp [heq]), ← hv]
  | commit_error s tx rest i n rr s2 e hn heq hex hcommit =>
    have hv := ExecuteRel_sound g ops vm s bi tx.raw _ hex
    simp only [Generator.apply_transactions, hn]
    rw [if_neg (by simp [heq]), ← hv]
    simp [hcommit]
  | step s tx rest i n rr s2 out hn heq hex hcommit _ ih =>
    have hv := ExecuteRel_sound g ops vm s bi tx.raw _ hex
    simp only [Generator.apply_transactions, hn]
    rw [if_neg (by simp [heq]), ← hv]
    simp only [hcommit]
    exact ih

/-- The functional embedding of the transaction loop satisfies the loop step
rules with the graph of its sandbox. -/
theorem ApplyTransactionsRel_complete (g : Generator) (ops : StateOps σ)
    (vm : VM σ) (bh : H256) (bi : BlockInfo) (txs : List L2Transaction) :
    ∀ (s : σ) (i : Nat),
      ApplyTransactionsRel g ops (VM.graph vm) bh bi s txs i
        (g.apply_transactions ops vm bh bi s txs i) := by
  induction txs with
  | nil =>
    intro s i
    simp only [Generator.apply_transactions]
    exact ApplyTransactionsRel.nil s i
  | cons tx rest ih =>
    intro s i
    match hn : ops.get_nonce s tx.raw.from_id with
    | .error e =>
      have hv : g.apply_transactions ops vm bh bi s (tx :: rest) i =
          (s, .error (.State e)) := by
        simp [Generator.apply_transactions, hn]
      rw [hv]
      exact ApplyTransactionsRel.nonce_state_error s tx rest i e hn
    | .ok n =>
      by_cases hne : tx.raw.nonce ≠ n
      · have hv : g.apply_transactions ops vm bh bi s (tx :: rest) i =
            (s, .error (.Transaction
              { context :=
                  { block_hash := bh, block_number := bi.number, tx_index := i }
                error := .Nonce n tx.raw.nonce })) := by
          simp only [Generator.apply_transactions, hn]
          rw [if_pos hne]
        rw [hv]
        exact ApplyTransactionsRel.nonce_mismatch s tx rest i n hn hne
      · have heq : tx.raw.nonce = n := by
          by_contra hcon
          exact hne hcon
        match hex : g.execute ops vm s bi tx.raw with
        | .error err =>
          have hv : g.apply_transactions ops vm bh bi s (tx :: rest) i =
              (s, .error (.Transaction
                { context :=
                    { block_hash := bh, block_number := bi.number, tx_index := i }
                  error := err })) := by
            simp only [Generator.apply_transactions, hn]
            rw [if_neg hne, hex]
          rw [hv]
          refine ApplyTransactionsRel.execute_error s tx rest i n err hn heq ?_
          rw [← hex]
          exact ExecuteRel_complete g ops vm s bi tx.raw
        | .ok rr =>
          match hcommit : ops.apply_run_result s rr with
          | (s2, .error e) =>
            have hv : g.apply_transactions ops vm bh bi s (tx :: rest) i =
                (s2, .error (.State e)) := by
              simp only [Generator.apply_transactions, hn]
              rw [if_neg hne, hex]
              simp [hcommit]
            rw [hv]
            refine ApplyTransactionsRel.commit_error s tx rest i n rr s2 e hn
              heq ?_ hcommit
            rw [← hex]
            exact ExecuteRel_complete g ops vm s bi tx.raw
          | (s2, .ok ()) =>
            have hv : g.apply_transactions ops vm bh bi s (tx :: rest) i =
                g.apply_transactions ops vm bh bi s2 rest (i + 1) := by
              simp only [Generator.apply_transactions, hn]
              rw [if_neg hne, hex]
              simp [hcommit]
            rw [hv]
            refine ApplyTransactionsRel.step s tx rest i n rr s2 _ hn heq ?_
              hcommit (ih s2 (i + 1))
            rw [← hex]
            exact ExecuteRel_complete g ops vm s bi tx.raw

/-- Every outcome derivable for the state transition with the graph of a
deterministic sandbox equals the outcome of the functional embedding. -/
theorem ApplyStateTransitionRel_sound (g : Generator) (ops : StateOps σ)
    (vm : VM σ) (state : σ) (args : StateTransitionArgs)
    (out : σ × Except Error Unit)
    (h : ApplyStateTransitionRel g ops (VM.graph vm) state args out) :
    out = g.apply_state_transition ops vm state args := by
  cases h with
  | withdrawal_error s1 e hw =>
    simp [Generator.apply_state_transition, hw]
  | deposition_error s1 s2 e hw hd =>
    simp [Generator.apply_state_transition, hw, hd]
  | no_submit s1 s2 hw hd hnone =>
    simp [Generator.apply_state_transition, hw, hd, hnone]
  | with_submit s1 s2 st out hw hd hsome hloop =>
    have hv := ApplyTransactionsRel_sound g ops vm args.l2block.raw.hash
      (get_block_info args.l2block.raw) s2 args.l2block.transactions 0 _ hloop
    simp [Generator.apply_state_transition, hw, hd, hsome]
    exact hv

/-- The functional embedding of the state transition satisfies the transition
step rules with the graph of its sandbox. -/
theorem ApplyStateTransitionRel_complete (g : Generator) (ops : StateOps σ)
    (vm : VM σ) (state : σ) (args : StateTransitionArgs) :
    ApplyStateTransitionRel g ops (VM.graph vm) state args
      (g.apply_state_transition ops vm state args) := by
  match hw : ops.apply_withdrawal_requests state args.withdrawal_requests
      args.l2block.raw.number with
  | (s1, .error e) =>
    have hv : g.apply_state_transition ops vm state args = (s1, .error (.State e)) := by
      simp [Generator.apply_state_transition, hw]
    rw [hv]
    exact ApplyStateTransitionRel.withdrawal_error state args s1 e hw
  | (s1, .ok ()) =>
    match hd : ops.apply_deposition_requests s1 args.deposition_requests with
    | (s2, .error e) =>
      have hv : g.apply_state_transition ops vm state args =
          (s2, .error (.State e)) := by
        simp [Generator.apply_state_transition, hw, hd]
      rw [hv]
      exact ApplyStateTransitionRel.deposition_error state args s1 s2 e hw hd
    | (s2, .ok ()) =>
      match hsub : args.l2block.raw.submit_transactions with
      | none =>
        have hv : g.apply_state_transition ops vm state args = (s2, .ok ()) := by
          simp [Generator.apply_state_transition, hw, hd, hsub]
        rw [hv]
        exact ApplyStateTransitionRel.no_submit state args s1 s2 hw hd hsub
      | some st =>
        have hv : g.apply_state_transition ops vm state args =
            g.apply_transactions ops vm args.l2block.raw.hash
              (get_block_info args.l2block.raw) s2 args.l2block.transactions 0 := by
          simp [Generator.apply_state_transition, hw, hd, hsub]
        rw [hv]
        exact ApplyStateTransitionRel.with_submit state args s1 s2 st _ hw hd
          hsub
          (ApplyTransactionsRel_complete g ops vm args.l2block.raw.hash
            (get_block_info args.l2block.raw) args.l2block.transactions s2 0)

/-- Claim C6: apply_state_transition is deterministic. With the sandbox given
as the graph of a deterministic run function and the state operations as
functions, any two outcomes (final state and result) derivable by the
transition step rules from identical initial state and identical arguments
are equal, and both equal the functional embedding of
apply_state_transition. -/
theorem apply_state_transition_deterministic (g : Generator) (ops : StateOps σ)
    (vm : VM σ) (state : σ) (args : StateTransitionArgs)
    (out1 out2 : σ × Except Error Unit)
    (h1 : ApplyStateTransitionRel g ops (VM.graph vm) state args out1)
    (h2 : ApplyStateTransitionRel g ops (VM.graph vm) state args out2) :
    out1 = out2 ∧ out1 = g.apply_state_transition ops vm state args := by
  have e1 := ApplyStateTransitionRel_sound g ops vm state args out1 h1
  have e2 := ApplyStateTransitionRel_sound g ops vm state args out2 h2
  exact ⟨e1.trans e2.symm, e1⟩

/-- Witness for claim C6: two derivations for the fixture block from the same
initial state have equal outcomes. -/
theorem apply_state_transition_deterministic_witness :
    ApplyStateTransitionRel gW modelOps (VM.graph vmW) sW argsW
      (gW.apply_state_transition modelOps vmW sW argsW) ∧
    (gW.apply_state_transition modelOps vmW sW argsW, true) =
      (gW.apply_state_transition modelOps vmW sW argsW, true) :=
  ⟨ApplyStateTransitionRel_complete gW modelOps vmW sW argsW,
    by
      have h := apply_state_transition_deterministic gW modelOps vmW sW argsW
        (gW.apply_state_transition modelOps vmW sW argsW)
        (gW.apply_state_transition modelOps vmW sW argsW)
        (ApplyStateTransitionRel_complete gW modelOps vmW sW argsW)
        (ApplyStateTransitionRel_complete gW modelOps vmW sW argsW)
      rw [h.1]⟩

end Godwoken
